import Mathlib

/-!
Shallow embedding of the cfw-language-redirector Cloudflare worker.

The repository consists of four variants of the same worker:
* `src/index.js` — the basic variant (no cache, no media/admin bypass);
* `src/config.js` — the shipped configuration object together with a
  cache-by-URL variant of the worker;
* `src/unnamed/part_000` — the first currency-aware variant;
* `src/unnamed/part_001` — the second currency-aware variant (adds the
  `cookieExists` flag and a larger country table).

JavaScript strings are modelled as Lean `String`s, with the string
primitives the worker uses (`split`, `trim`, `toLowerCase`, `replace`,
`startsWith`-style regex tests) re-implemented over `List Char` so that all
definitions evaluate by `decide`/`rfl`.  The two external npm libraries the
worker calls (`accept-language-parser`'s `pick` and `url-matcher`'s
`matchPattern`) are modelled from their published sources; the model is
faithful on canonical inputs (the repository never feeds them anything
else).  `fetch` is modelled as an oracle `Nat → Except Failure Response`
indexed by the order of fetch calls inside one handler invocation, with
`Except.error` standing for a rejected promise (transport error).
-/

namespace LangRedirect

/-! ### Character and string primitives (ASCII, as used by the worker) -/

def isAlphaChar (c : Char) : Bool :=
  ('a' ≤ c && c ≤ 'z') || ('A' ≤ c && c ≤ 'Z')

def isDigitChar (c : Char) : Bool :=
  '0' ≤ c && c ≤ '9'

def isAlnumChar (c : Char) : Bool :=
  isAlphaChar c || isDigitChar c

def isSpaceChar (c : Char) : Bool :=
  c == ' ' || c == '\t' || c == '\n' || c == '\r'

def lowerChar (c : Char) : Char :=
  if 'A' ≤ c && c ≤ 'Z' then Char.ofNat (c.toNat + 32) else c

def upperChar (c : Char) : Char :=
  if 'a' ≤ c && c ≤ 'z' then Char.ofNat (c.toNat - 32) else c

def toLowerStr (s : String) : String :=
  String.mk (s.data.map lowerChar)

def toUpperStr (s : String) : String :=
  String.mk (s.data.map upperChar)

/-- JavaScript `s.split(sep)` for a one-character separator. -/
def splitCharAux (sep : Char) : List Char → List Char → List (List Char)
  | [], acc => [acc.reverse]
  | c :: cs, acc =>
    if c == sep then acc.reverse :: splitCharAux sep cs []
    else splitCharAux sep cs (c :: acc)

def splitChar (sep : Char) (s : String) : List String :=
  (splitCharAux sep s.data []).map String.mk

/-- JavaScript `s.trim()` (ASCII whitespace). -/
def trimStr (s : String) : String :=
  String.mk (((s.data.dropWhile isSpaceChar).reverse.dropWhile isSpaceChar).reverse)

def isPrefixL : List Char → List Char → Bool
  | [], _ => true
  | _ :: _, [] => false
  | a :: as, b :: bs => a == b && isPrefixL as bs

def startsWithStr (s pre : String) : Bool :=
  isPrefixL pre.data s.data

def endsWithStr (s suf : String) : Bool :=
  isPrefixL suf.data.reverse s.data.reverse

def containsSub (needle : List Char) : List Char → Bool
  | [] => isPrefixL needle []
  | c :: cs => isPrefixL needle (c :: cs) || containsSub needle cs

/-- Whether `needle` occurs as a substring of `hay`. -/
def containsSubStr (needle hay : String) : Bool :=
  containsSub needle.data hay.data

def digitVal (c : Char) : Nat :=
  c.toNat - '0'.toNat

def digitsToNat (cs : List Char) : Nat :=
  cs.foldl (fun n c => n * 10 + digitVal c) 0

/-- JavaScript `parts.join('=')`, used by the cookie parser. -/
def joinWithEq : List String → String
  | [] => ""
  | [s] => s
  | s :: rest => s ++ "=" ++ joinWithEq rest

/-! ### accept-language-parser model (`parse` and `pick`)

Modelled from the published source of the `accept-language-parser` npm
package.  Qualities are `parseFloat`ed in the library; they are modelled as
exact unscaled fractions (`num / den`), which orders the canonical `q=`
values exactly as the library's floats do. -/

structure Quality where
  num : Nat
  den : Nat
deriving DecidableEq

/-- `a ≤ b` on qualities, by cross multiplication. -/
def qLe (a b : Quality) : Bool :=
  a.num * b.den ≤ b.num * a.den

def isQChar (c : Char) : Bool :=
  isDigitChar c || c == '.'

/-- JavaScript `parseFloat` on a `[0-9.]+` string (everything after a second
dot is ignored, as `parseFloat` does). -/
def parseDecimalQ (s : String) : Quality :=
  match splitChar '.' s with
  | [] => ⟨0, 1⟩
  | [i] => ⟨digitsToNat i.data, 1⟩
  | i :: f :: _ =>
    ⟨digitsToNat i.data * 10 ^ f.data.length + digitsToNat f.data, 10 ^ f.data.length⟩

structure LangEntry where
  code : String
  script : Option String
  region : Option String
  quality : Quality
deriving DecidableEq

/-- The language-tag shape accepted by the library's entry regex:
`[a-zA-Z]+(-[a-zA-Z0-9]+){0,2}` or `*`. -/
def validTag (tag : String) : Bool :=
  if tag == "*" then true
  else
    match splitChar '-' tag with
    | [] => false
    | code :: subs =>
      code != "" && code.data.all isAlphaChar && subs.length ≤ 2 &&
        subs.all (fun sub => sub != "" && sub.data.all isAlnumChar)

/-- The `;q=[0-9.]+` quality suffix of an entry. -/
def parseQPart (q : String) : Option Quality :=
  match splitChar '=' q with
  | [k, v] =>
    if k == "q" && v != "" && v.data.all isQChar then some (parseDecimalQ v) else none
  | _ => none

/-- Split a tag into code/script/region exactly as the library does:
`ietf = tag.split('-')`; a script is present only when there are three
parts. -/
def mkLangEntry (tag : String) (q : Quality) : LangEntry :=
  let ietf := splitChar '-' tag
  { code := ietf.headD ""
    script := if ietf.length == 3 then ietf[1]? else none
    region := if ietf.length == 3 then ietf[2]? else ietf[1]?
    quality := q }

def parseEntry (s : String) : Option LangEntry :=
  match splitChar ';' s with
  | [tag] => if validTag tag then some (mkLangEntry tag ⟨1, 1⟩) else none
  | [tag, qp] => if validTag tag then (parseQPart qp).map (mkLangEntry tag) else none
  | _ => none

/-- Stable insertion keeping qualities in descending order (the library
sorts with the stable `(a, b) => b.quality - a.quality`). -/
def insertByQ (e : LangEntry) : List LangEntry → List LangEntry
  | [] => [e]
  | x :: xs => if qLe x.quality e.quality then e :: x :: xs else x :: insertByQ e xs

def sortByQualityDesc : List LangEntry → List LangEntry
  | [] => []
  | x :: xs => insertByQ x (sortByQualityDesc xs)

/-- The library's `parse`: extract the well-formed entries and sort them by
quality, descending, stably. -/
def parseAcceptLanguage (h : String) : List LangEntry :=
  sortByQualityDesc (((splitChar ',' h).map trimStr).filterMap parseEntry)

structure SupTag where
  code : String
  script : Option String
  region : Option String

/-- The library's parsing of one supported-language string:
`bits = support.split('-')`; script/region only fall out of a three-part
tag, otherwise the region is `bits[1]` (possibly absent). -/
def parseSupported (support : String) : SupTag :=
  let bits := splitChar '-' support
  { code := bits.headD ""
    script := if bits.length == 3 then bits[1]? else none
    region := if bits.length == 3 then bits[2]? else bits[1]? }

/-- One step of the library's `pick` scan: the first supported language
whose code matches the parsed entry case-insensitively, with script and
region required to match only when the entry carries them. -/
def pickFind (supportedLanguages : List String) (lang : LangEntry) : Option String :=
  (supportedLanguages.map (fun s => (s, parseSupported s))).findSome? fun p =>
    let sup := p.2
    if toLowerStr lang.code == toLowerStr sup.code
        && (lang.script.isNone || lang.script.map toLowerStr == sup.script.map toLowerStr)
        && (lang.region.isNone || lang.region.map toLowerStr == sup.region.map toLowerStr)
    then some p.1 else none

/-- The library's `pick(supportedLanguages, acceptLanguage)` (strict mode,
as the worker calls it). -/
def pick (supportedLanguages : List String) (header : String) : Option String :=
  if supportedLanguages.isEmpty || header == "" then none
  else (parseAcceptLanguage header).findSome? (pickFind supportedLanguages)

/-! ### The region-stripping retry

All four variants retry negotiation on
`header.replace(/([a-zA-Z]{2})-[a-zA-Z]{2}/, '$1')`.  The JavaScript
`replace` without the `g` flag rewrites only the leftmost match. -/

def stripFirstRegionAux : Nat → List Char → List Char
  | 0, l => l
  | fuel + 1, a :: b :: '-' :: c :: d :: rest =>
    if isAlphaChar a && isAlphaChar b && isAlphaChar c && isAlphaChar d then
      a :: b :: rest
    else a :: stripFirstRegionAux fuel (b :: '-' :: c :: d :: rest)
  | fuel + 1, a :: rest => a :: stripFirstRegionAux fuel rest
  | _ + 1, [] => []

/-- `header.replace(/([a-zA-Z]{2})-[a-zA-Z]{2}/, '$1')`: strip the region
qualifier from the leftmost `xx-YY`-shaped substring only.  (The fuel is an
upper bound on the scan; `s.data.length` always suffices since every step
consumes at least one character.) -/
def stripFirstRegion (s : String) : String :=
  String.mk (stripFirstRegionAux s.data.length s.data)

def stripAllRegionsAux : Nat → List Char → List Char
  | 0, l => l
  | fuel + 1, a :: b :: '-' :: c :: d :: rest =>
    if isAlphaChar a && isAlphaChar b && isAlphaChar c && isAlphaChar d then
      a :: b :: stripAllRegionsAux fuel rest
    else a :: stripAllRegionsAux fuel (b :: '-' :: c :: d :: rest)
  | fuel + 1, a :: rest => a :: stripAllRegionsAux fuel rest
  | _ + 1, [] => []

/-- Modelled from the spec: stripping the region qualifier from EVERY
`xx-YY`-shaped entry of the raw header (a global
`replace(/([a-zA-Z]{2})-[a-zA-Z]{2}/g, '$1')`), as the specification's
wording describes the retry.  Used only to compare the specification's
description against the source's single-occurrence `replace`. -/
def stripAllRegions (s : String) : String :=
  String.mk (stripAllRegionsAux s.data.length s.data)

/-! ### url-matcher model (`matchPattern` with `remainingPathname === ''`)

Modelled from the published source of the `url-matcher` npm package
(react-router's `PatternUtils`).  A pattern compiles to a case-insensitive
anchored regex: literal characters, `:name` → `([^/]+)`, `*`/`**` → any
characters, followed by `/*`.  The worker only ever tests whether the match
is full (`match.remainingPathname === ''`), which holds exactly when the
whole pathname is consumed by the tokens followed by trailing slashes, so
greediness is irrelevant.  The optional-group syntax `( … )` is not
modelled (the repository's configured patterns never use it). -/

inductive PatTok where
  | lit (c : Char)
  | param
  | splat
deriving DecidableEq

def identStartChar (c : Char) : Bool :=
  isAlphaChar c || c == '_' || c == '$'

def identChar (c : Char) : Bool :=
  identStartChar c || isDigitChar c

def tokenizePatternAux : Nat → List Char → List PatTok
  | 0, _ => []
  | _ + 1, [] => []
  | fuel + 1, '*' :: '*' :: rest => PatTok.splat :: tokenizePatternAux fuel rest
  | fuel + 1, '*' :: rest => PatTok.splat :: tokenizePatternAux fuel rest
  | fuel + 1, ':' :: c :: rest =>
    if identStartChar c then PatTok.param :: tokenizePatternAux fuel (rest.dropWhile identChar)
    else PatTok.lit ':' :: tokenizePatternAux fuel (c :: rest)
  | fuel + 1, c :: rest => PatTok.lit c :: tokenizePatternAux fuel rest

/-- Tokenize a pattern the way the library's `_compilePattern` does (fuel is
an upper bound on the scan; the pattern's length always suffices). -/
def tokenizePattern (pat : List Char) : List PatTok :=
  tokenizePatternAux pat.length pat

def toksMatch : List PatTok → List Char → Bool
  | [], cs => cs.all (fun c => c == '/')
  | PatTok.lit _ :: _, [] => false
  | PatTok.lit c :: ts, d :: ds => lowerChar c == lowerChar d && toksMatch ts ds
  | PatTok.param :: ts, cs =>
    (List.range cs.length).any fun k =>
      ((cs.take (k + 1)).all (fun c => c != '/')) && toksMatch ts (cs.drop (k + 1))
  | PatTok.splat :: ts, cs =>
    (List.range (cs.length + 1)).any fun k => toksMatch ts (cs.drop k)

def ensureLeadingSlash (s : String) : String :=
  if startsWithStr s "/" then s else "/" ++ s

/-- `matchPattern(pattern, pathname)` succeeded with
`remainingPathname === ''`. -/
def matchPatternFull (pat pathname : String) : Bool :=
  toksMatch (tokenizePattern (ensureLeadingSlash pat).data) (ensureLeadingSlash pathname).data

/-! ### Data model: config, request, response, cache -/

/-- The configuration surface of `src/config.js`.  `default_currency` is
referenced by the currency variants but absent from the shipped config, so
it is an `Option` (`none` models the JavaScript `undefined`). -/
structure Config where
  default_language : String
  supported_languages : List String
  listen_on_paths : List String
  listen_on_all_paths : Bool
  always_on_not_found : Bool
  listen_on_prefixed_paths : Bool
  default_currency : Option String := none
deriving DecidableEq

/-- The shipped configuration object (`src/config.js`, lines 1–15). -/
def config : Config where
  default_language := "en"
  supported_languages := ["de", "es", "fr", "de", "pt", "it", "nl", "ro", "hu", "lt", "en"]
  listen_on_paths := ["/", "/*"]
  listen_on_all_paths := false
  always_on_not_found := true
  listen_on_prefixed_paths := false
  default_currency := none

/-- The parts of `new URL(request.url)` the worker reads or writes. -/
structure URLParts where
  scheme : String
  host : String
  pathname : String
  search : String
deriving DecidableEq

/-- `url.href` / `url.toString()`. -/
def URLParts.href (u : URLParts) : String :=
  u.scheme ++ "://" ++ u.host ++ u.pathname ++ u.search

/-- The parts of the inbound request the worker reads.  `acceptLanguage`
and `cookieHeader` are `none` when the header is absent (`headers.has`
false / `headers.get` null); `cfCountry` models
`request.cf && request.cf.country ? request.cf.country : null`. -/
structure Request where
  method : String
  url : URLParts
  acceptLanguage : Option String
  cookieHeader : Option String
  cfCountry : Option String
deriving DecidableEq

structure Response where
  status : Nat
  body : Option String
  headers : List (String × String)
deriving DecidableEq

/-- A worker invocation can fail in two ways: an uncaught JavaScript
exception inside the handler, or a rejected `fetch` promise that is not
caught (the final passthrough). -/
inductive Failure where
  | jsError
  | fetchFailed
deriving DecidableEq

/-- Oracle for `fetch(request)`: the n-th fetch call of one handler
invocation (all fetches forward the original request). -/
abbrev FetchOracle := Nat → Except Failure Response

abbrev Cache := List (String × Response)

def cacheLookup (c : Cache) (k : String) : Option Response :=
  (c.find? (fun kv => kv.1 == k)).map (fun kv => kv.2)

/-- `CACHE.put(key, resp)`: later puts for the same key overwrite. -/
def cachePut (c : Cache) (k : String) (r : Response) : Cache :=
  (k, r) :: c.filter (fun kv => kv.1 != k)

/-- `CACHE_EXPIRATION = 60 * 60`. -/
def CACHE_EXPIRATION : Nat := 60 * 60

/-! ### Shared building blocks of the four handlers -/

/-- The media regex `/\.(png|jpeg|jpg|webp|mp4)([?\/].*)?$/i` applied to
`url.pathname`: a media extension at the end, or followed by `?` or `/` and
anything up to the end. -/
def isMediaPath (p : String) : Bool :=
  let lp := toLowerStr p
  ["png", "jpeg", "jpg", "webp", "mp4"].any fun ext =>
    endsWithStr lp ("." ++ ext) || containsSubStr ("." ++ ext ++ "/") lp ||
      containsSubStr ("." ++ ext ++ "?") lp

/-- The admin regex (pathname starts with `/wp-`). -/
def isWpPath (p : String) : Bool :=
  startsWithStr p "/wp-"

/-- The already-prefixed guard of every variant: only when
`listen_on_prefixed_paths` is disabled, split the pathname on `/`; only
when the split has MORE than two parts, compare the first part
case-insensitively against every supported language.  (A single-segment
path such as `/de` splits into two parts and is therefore never guarded.)
-/
def firstSegmentIsLanguage (cfg : Config) (pathname : String) : Bool :=
  if cfg.listen_on_prefixed_paths then false
  else
    let urlArray := splitChar '/' pathname
    if urlArray.length > 2 then
      let firstPart := (urlArray.drop 1).headD ""
      cfg.supported_languages.any fun language => toLowerStr language == toLowerStr firstPart
    else false

/-- The scope decision: `listen_on_all_paths`, or some configured route
pattern fully matches the pathname (`match && match.remainingPathname ===
''`). -/
def routeHandleThis (cfg : Config) (pathname : String) : Bool :=
  cfg.listen_on_all_paths || cfg.listen_on_paths.any fun path => matchPatternFull path pathname

/-- `redirectWithPrefix` of the cache-by-URL and currency variants: 302, a
null body, `Location` from the prefixed URL, and the `Cache-Control`
header. -/
def redirectWithPrefixCached (url : URLParts) (pfx : String) : Response :=
  let url2 : URLParts := { url with pathname := "/" ++ pfx ++ url.pathname }
  { status := 302
    body := none
    headers := [("Location", url2.href),
                ("Cache-Control", "public, max-age=" ++ toString CACHE_EXPIRATION)] }

/-- `redirectWithPrefix` of `src/index.js`: identical except that no
`Cache-Control` header is set. -/
def redirectWithPrefixBasic (url : URLParts) (pfx : String) : Response :=
  let url2 : URLParts := { url with pathname := "/" ++ pfx ++ url.pathname }
  { status := 302
    body := none
    headers := [("Location", url2.href)] }

/-! ### The handler of the cache-by-URL variant (`src/config.js`, lines
54–176)

Handlers return the awaited response (or the failure that escaped) paired
with the number of fetch calls performed. -/

/-- Lines 144–175 of the cache-by-URL variant: the language pipeline that
runs once the request is in scope (or was promoted).  `k` is the number of
fetch calls already performed. -/
def handlerCTail (cfg : Config) (req : Request) (origin : FetchOracle) (k : Nat) :
    Except Failure Response × Nat :=
  match req.acceptLanguage with
  | none => (origin k, k + 1)
  | some header =>
    let language := pick cfg.supported_languages header
    let language :=
      if language.isNone || language == some cfg.default_language then
        pick cfg.supported_languages (stripFirstRegion header)
      else language
    let language := language.getD cfg.default_language
    if language == cfg.default_language then (origin k, k + 1)
    else (Except.ok (redirectWithPrefixCached req.url language), k)

def handlerC (cfg : Config) (req : Request) (origin : FetchOracle) :
    Except Failure Response × Nat :=
  if !(req.method == "GET" || req.method == "HEAD") then (origin 0, 1)
  else if isMediaPath req.url.pathname || isWpPath req.url.pathname then (origin 0, 1)
  else if firstSegmentIsLanguage cfg req.url.pathname then (origin 0, 1)
  else if routeHandleThis cfg req.url.pathname then handlerCTail cfg req origin 0
  else if cfg.always_on_not_found then
    match origin 0 with
    | Except.ok res =>
      if res.status == 404 then handlerCTail cfg req origin 1 else (Except.ok res, 1)
    | Except.error _ => handlerCTail cfg req origin 1
  else (origin 0, 1)

/-- `handleRequest` of the cache-by-URL variant (`src/config.js`, lines
31–52): look up the cache by `url.toString()`, run the handler on a miss,
and store the response only when it is a 302. -/
def handleRequestC (cfg : Config) (cache : Cache) (req : Request) (origin : FetchOracle) :
    Except Failure Response × Cache :=
  let cacheKey := req.url.href
  match cacheLookup cache cacheKey with
  | some cachedResponse => (Except.ok cachedResponse, cache)
  | none =>
    match handlerC cfg req origin with
    | (Except.error e, _) => (Except.error e, cache)
    | (Except.ok response, _) =>
      if response.status == 302 then (Except.ok response, cachePut cache cacheKey response)
      else (Except.ok response, cache)

/-! ### The handler of the basic variant (`src/index.js`, lines 8–128) -/

/-- Lines 95–127 of `src/index.js`.  The retry branch reads
`parser.pick(...)`, but only `pick` was imported and no `parser` is in
scope, so entering it throws a `ReferenceError` — modelled as
`Failure.jsError`. -/
def handlerBasicTail (cfg : Config) (req : Request) (origin : FetchOracle) (k : Nat) :
    Except Failure Response × Nat :=
  match req.acceptLanguage with
  | none => (origin k, k + 1)
  | some header =>
    match pick cfg.supported_languages header with
    | none => (Except.error Failure.jsError, k)
    | some language =>
      if language == cfg.default_language then (Except.error Failure.jsError, k)
      else (Except.ok (redirectWithPrefixBasic req.url language), k)

/-- The basic variant's handler: no media/admin bypass, and in the
out-of-scope trial branch a non-404 trial is answered with a SECOND
`fetch(request)` (`return fetch(request)`, line 83), not with the trial
response. -/
def handlerBasic (cfg : Config) (req : Request) (origin : FetchOracle) :
    Except Failure Response × Nat :=
  if !(req.method == "GET" || req.method == "HEAD") then (origin 0, 1)
  else if firstSegmentIsLanguage cfg req.url.pathname then (origin 0, 1)
  else if routeHandleThis cfg req.url.pathname then handlerBasicTail cfg req origin 0
  else if cfg.always_on_not_found then
    match origin 0 with
    | Except.ok res =>
      if res.status == 404 then handlerBasicTail cfg req origin 1 else (origin 1, 2)
    | Except.error _ => handlerBasicTail cfg req origin 1
  else (origin 0, 1)

/-! ### The currency-aware variants (`src/unnamed/part_000` and
`src/unnamed/part_001`) -/

/-- `detectLanguage` (identical in part_000 lines 70–88 and part_001 lines
77–102). -/
def detectLanguage (cfg : Config) (req : Request) : String :=
  match req.acceptLanguage with
  | none => cfg.default_language
  | some header =>
    let language := pick cfg.supported_languages header
    let language :=
      if language.isNone || language == some cfg.default_language then
        pick cfg.supported_languages (stripFirstRegion header)
      else language
    language.getD cfg.default_language

/-- The language tail of the currency handlers (part_000 lines 167–172,
part_001 lines 189–194): passthrough on the default language, otherwise
redirect to the detected language. -/
def handlerPTail (cfg : Config) (req : Request) (origin : FetchOracle)
    (detectedLanguage : String) (k : Nat) : Except Failure Response × Nat :=
  if detectedLanguage == cfg.default_language then (origin k, k + 1)
  else (Except.ok (redirectWithPrefixCached req.url detectedLanguage), k)

/-- The handler shared by part_000 (lines 90–173) and part_001 (lines
104–195); their bodies are identical. -/
def handlerP (cfg : Config) (req : Request) (origin : FetchOracle)
    (detectedLanguage : String) : Except Failure Response × Nat :=
  if !(req.method == "GET" || req.method == "HEAD") then (origin 0, 1)
  else if isMediaPath req.url.pathname || isWpPath req.url.pathname then (origin 0, 1)
  else if firstSegmentIsLanguage cfg req.url.pathname then (origin 0, 1)
  else if routeHandleThis cfg req.url.pathname then handlerPTail cfg req origin detectedLanguage 0
  else if cfg.always_on_not_found then
    match origin 0 with
    | Except.ok res =>
      if res.status == 404 then handlerPTail cfg req origin detectedLanguage 1
      else (Except.ok res, 1)
    | Except.error _ => handlerPTail cfg req origin detectedLanguage 1
  else (origin 0, 1)

/-- `parseCookies` (part_000 lines 198–204, part_001 lines 220–226): split
on `;`, trim, split each cookie on `=`, name before the first `=`, value
the rest re-joined; later duplicates overwrite earlier ones. -/
def parseCookies (cookieHeader : String) : List (String × String) :=
  (splitChar ';' cookieHeader).map fun cookie =>
    match splitChar '=' (trimStr cookie) with
    | [] => ("", "")
    | name :: rest => (name, joinWithEq rest)

/-- Property read on the cookies object: the LAST binding of a name wins
(JavaScript object assignment in `reduce`). -/
def cookieGet (cookies : List (String × String)) (name : String) : Option String :=
  (cookies.reverse.find? (fun kv => kv.1 == name)).map (fun kv => kv.2)

/-- JavaScript truthiness of a possibly-undefined string. -/
def jsTruthy : Option String → Bool
  | none => false
  | some s => s != ""

def tableLookup (table : List (String × String)) (k : String) : Option String :=
  (table.find? (fun kv => kv.1 == k)).map (fun kv => kv.2)

/-- The country table of part_000's `mapCountryToCurrency` (lines 211–240).
-/
def countryMappingP0 : List (String × String) :=
  [("AU", "AUD"), ("US", "USD"), ("UK", "GBP"), ("CA", "CAD"), ("MX", "MXN"),
   ("FR", "EUR"), ("DE", "EUR"), ("IT", "EUR"), ("ES", "EUR"), ("NL", "EUR"),
   ("BE", "EUR"), ("SE", "SEK"), ("IE", "EUR"), ("PT", "EUR"), ("CH", "CHF"),
   ("AT", "EUR"), ("PL", "PLN"), ("SK", "EUR"), ("SI", "EUR"), ("GR", "EUR"),
   ("LU", "EUR"), ("MT", "EUR"), ("CY", "EUR"), ("AE", "AED")]

/-- part_000's `mapCountryToCurrency`:
`mapping[countryCode.toUpperCase()] || config.default_currency` — with no
configured default currency this is `undefined` (`none`). -/
def mapCountryToCurrencyP0 (cfg : Config) (countryCode : String) : Option String :=
  match tableLookup countryMappingP0 (toUpperStr countryCode) with
  | some currency => some currency
  | none => cfg.default_currency

/-- The country table of part_001's `mapCountryToCurrency` (lines 234–300).
-/
def countryToCurrencyP1 : List (String × String) :=
  [("AU", "AUD"), ("US", "USD"), ("CA", "CAD"), ("GB", "GBP"), ("EU", "EUR"),
   ("AE", "AED"), ("AR", "ARS"), ("BR", "BRL"), ("CH", "CHF"), ("CR", "CRC"),
   ("CZ", "CZK"), ("DK", "DKK"), ("ID", "IDR"), ("JP", "JPY"), ("NZ", "NZD"),
   ("PL", "PLN"), ("SA", "SAR"), ("SE", "SEK"), ("SG", "SGD"), ("VE", "VEF"),
   ("ZA", "ZAR"),
   ("AT", "EUR"), ("BE", "EUR"), ("CY", "EUR"), ("DE", "EUR"), ("EE", "EUR"),
   ("ES", "EUR"), ("FI", "EUR"), ("FR", "EUR"), ("GR", "EUR"), ("IE", "EUR"),
   ("IT", "EUR"), ("LT", "EUR"), ("LU", "EUR"), ("LV", "EUR"), ("MT", "EUR"),
   ("NL", "EUR"), ("PT", "EUR"), ("SI", "EUR"), ("SK", "EUR"),
   ("CC", "AUD"), ("CX", "AUD"), ("NF", "AUD"),
   ("AS", "USD"), ("GU", "USD"), ("MP", "USD"), ("PR", "USD"), ("UM", "USD"),
   ("VI", "USD")]

/-- part_001's `getCurrencyFromCountry(cfCountry, countryToCurrency,
fallback = 'USD')`: the default parameter applies when the passed fallback
is `undefined`, so an absent `config.default_currency` becomes `'USD'`. -/
def getCurrencyFromCountry (cfCountry : Option String)
    (countryToCurrency : List (String × String)) (fallback : Option String) : String :=
  let fb := match fallback with | none => "USD" | some s => s
  let code := toUpperStr (cfCountry.getD "")
  match tableLookup countryToCurrency code with
  | some currency => currency
  | none => fb

/-- part_001's `mapCountryToCurrency` (lines 234–300). -/
def mapCountryToCurrencyP1 (cfg : Config) (countryCode : String) : String :=
  getCurrencyFromCountry (some countryCode) countryToCurrencyP1 cfg.default_currency

/-- part_000's `Set-Cookie` append:
`woocs_curr=${currency}; Path=/; HttpOnly`. -/
def appendWoocsP0 (r : Response) (currency : String) : Response :=
  { r with headers := r.headers ++ [("Set-Cookie", "woocs_curr=" ++ currency ++ "; Path=/; HttpOnly")] }

/-- part_001's `Set-Cookie` append:
`woocs_curr=${currency}; Path=/; Max-Age=86400; Secure; SameSite=Lax`. -/
def appendWoocsP1 (r : Response) (currency : String) : Response :=
  { r with headers := r.headers ++
      [("Set-Cookie", "woocs_curr=" ++ currency ++ "; Path=/; Max-Age=86400; Secure; SameSite=Lax")] }

/-- The cache key of the currency variants:
`new Request(`${url.toString()}:${detectedLanguage}`, request)`. -/
def currencyCacheKey (cfg : Config) (req : Request) : String :=
  req.url.href ++ ":" ++ detectLanguage cfg req

/-- Whether a response carries a `Set-Cookie` header for `woocs_curr`. -/
def hasWoocsSetCookie (r : Response) : Bool :=
  r.headers.any fun kv => kv.1 == "Set-Cookie" && startsWithStr kv.2 "woocs_curr="

/-- `handleRequest` of part_000 (lines 16–68): note that the `Set-Cookie`
append and the cookie-bearing cache write are guarded by `if (currency)`
alone, which is truthy whenever the request already carried a
`woocs_curr` cookie.  The two `event.waitUntil(CACHE.put(...))` calls are
modelled as sequential puts in source order. -/
def handleRequestP0 (cfg : Config) (cache : Cache) (req : Request) (origin : FetchOracle) :
    Except Failure Response × Cache :=
  let detectedLanguage := detectLanguage cfg req
  let country := req.cfCountry
  let cookies := parseCookies ((req.cookieHeader).getD "")
  let cookieVal := cookieGet cookies "woocs_curr"
  let currency : Option String :=
    if !(jsTruthy cookieVal) && jsTruthy country then
      mapCountryToCurrencyP0 cfg (country.getD "")
    else cookieVal
  let cacheKey := currencyCacheKey cfg req
  match cacheLookup cache cacheKey with
  | some cachedResponse =>
    if jsTruthy currency then
      (Except.ok (appendWoocsP0 cachedResponse (currency.getD "")), cache)
    else (Except.ok cachedResponse, cache)
  | none =>
    match handlerP cfg req origin detectedLanguage with
    | (Except.error e, _) => (Except.error e, cache)
    | (Except.ok response, _) =>
      let finalResponse :=
        if jsTruthy currency then appendWoocsP0 response (currency.getD "") else response
      let cache1 :=
        if jsTruthy currency then cachePut cache cacheKey finalResponse else cache
      let cache2 :=
        if response.status == 302 then cachePut cache1 cacheKey response else cache1
      (Except.ok finalResponse, cache2)

/-- `handleRequest` of part_001 (lines 16–75): like part_000 but the
append/cache-write condition is `currency && !cookieExists`, with
`cookieExists = !!cookies.woocs_curr` captured before the country lookup.
-/
def handleRequestP1 (cfg : Config) (cache : Cache) (req : Request) (origin : FetchOracle) :
    Except Failure Response × Cache :=
  let detectedLanguage := detectLanguage cfg req
  let country := req.cfCountry
  let cookies := parseCookies ((req.cookieHeader).getD "")
  let cookieVal := cookieGet cookies "woocs_curr"
  let cookieExists := jsTruthy cookieVal
  let currency : Option String :=
    if !cookieExists && jsTruthy country then
      some (mapCountryToCurrencyP1 cfg (country.getD ""))
    else cookieVal
  let cacheKey := currencyCacheKey cfg req
  match cacheLookup cache cacheKey with
  | some cachedResponse =>
    if jsTruthy currency && !cookieExists then
      (Except.ok (appendWoocsP1 cachedResponse (currency.getD "")), cache)
    else (Except.ok cachedResponse, cache)
  | none =>
    match handlerP cfg req origin detectedLanguage with
    | (Except.error e, _) => (Except.error e, cache)
    | (Except.ok response, _) =>
      let fresh := jsTruthy currency && !cookieExists
      let finalResponse :=
        if fresh then appendWoocsP1 response (currency.getD "") else response
      let cache1 := if fresh then cachePut cache cacheKey finalResponse else cache
      let cache2 :=
        if response.status == 302 then cachePut cache1 cacheKey response else cache1
      (Except.ok finalResponse, cache2)

/-! ### Concrete fixtures used by the witnesses and counterexamples -/

def u0 : URLParts := ⟨"https", "shop.example", "/page", ""⟩

/-- A generic origin 200 response. -/
def okResp : Response := ⟨200, some "page", [("Content-Type", "text/html")]⟩

/-- An origin that always answers 200. -/
def originOk : FetchOracle := fun _ => Except.ok okResp

/-- An origin whose n-th response has status `200 + n`, so the trial fetch
and a repeated fetch are distinguishable. -/
def originIdx : FetchOracle := fun n => Except.ok ⟨200 + n, none, []⟩

/-- An origin whose first fetch fails with a transport error. -/
def originFail0 : FetchOracle :=
  fun n => if n == 0 then Except.error Failure.fetchFailed else Except.ok okResp

/-- The shipped config with routes under which `/page` is out of scope. -/
def cfgOut : Config := { config with listen_on_paths := ["/shop/**"] }

/-- A single-segment path equal to a supported language. -/
def reqDe : Request := ⟨"GET", ⟨"https", "shop.example", "/de", ""⟩, some "de", none, none⟩

/-- A region variant of a supported non-default language. -/
def reqDeCH : Request := ⟨"GET", u0, some "de-CH", none, none⟩

/-- A plain in-scope request preferring `de`. -/
def req2 : Request := ⟨"GET", u0, some "de", none, none⟩

/-- Same URL, preferring `fr`. -/
def reqFr : Request := ⟨"GET", u0, some "fr", none, none⟩

/-- Two region-qualified entries, the second with the higher quality. -/
def req4 : Request := ⟨"GET", u0, some "de-DE;q=0.5,fr-FR;q=0.9", none, none⟩

/-- A client that already carries a `woocs_curr` cookie, from a country
mapping to a different currency. -/
def req1 : Request := ⟨"GET", u0, none, some "woocs_curr=EUR", some "US"⟩

/-- No cookie and no country signal. -/
def req8a : Request := ⟨"GET", u0, none, none, none⟩

/-- No cookie, lower-case country code. -/
def req8b : Request := ⟨"GET", u0, none, none, some "us"⟩

/-- Client A: no cookie, United States. -/
def reqA : Request := ⟨"GET", u0, none, none, some "US"⟩

/-- Client B: no cookie, Germany, same URL and headers as client A. -/
def reqB : Request := ⟨"GET", u0, none, none, some "DE"⟩

end LangRedirect

deriving instance DecidableEq for Except

namespace LangRedirect

/-! ### Helper lemmas shared by the claim theorems -/

theorem dataAppend (s t : String) : (s ++ t).data = s.data ++ t.data := by
  cases s
  cases t
  rfl

theorem isPrefixLAppend (p l : List Char) : isPrefixL p (p ++ l) = true := by
  induction p with
  | nil => rfl
  | cons a as ih => simp [isPrefixL, ih]

theorem hasWoocsAppendP1 (r : Response) (cur : String) :
    hasWoocsSetCookie (appendWoocsP1 r cur) = true := by
  simp [hasWoocsSetCookie, appendWoocsP1, List.any_append, startsWithStr, dataAppend,
    List.append_assoc, isPrefixL]

theorem cacheLookupPut (c : Cache) (k : String) (r : Response) :
    cacheLookup (cachePut c k r) k = some r := by
  simp [cacheLookup, cachePut, List.find?]

/-! ### The claims -/

/-- C1 (counterexample): in part_000's currency-aware `handleRequest`, a
request that already carries `woocs_curr=EUR` (and a US country signal)
receives a response WITH a `Set-Cookie` header for `woocs_curr` (restating
the value `EUR`), refuting the claim that such responses contain no
`woocs_curr` `Set-Cookie`. -/
theorem c1_counterexample :
    cookieGet (parseCookies ((req1.cookieHeader).getD "")) "woocs_curr" = some "EUR"
    ∧ (handleRequestP0 config [] req1 originOk).1 = Except.ok (appendWoocsP0 okResp "EUR")
    ∧ hasWoocsSetCookie (appendWoocsP0 okResp "EUR") = true := by
  decide

/-- C1 (amended): in part_001's currency-aware `handleRequest`, when the
request already carries a truthy `woocs_curr` cookie the handler never
appends a `Set-Cookie` for `woocs_curr`: a cache hit is returned exactly as
stored, a miss returns the pipeline response exactly as produced, and the
system's own redirects carry no `woocs_curr` `Set-Cookie`.  (part_000
instead appends a `Set-Cookie` restating the client's existing value.) -/
theorem c1_theorem (cfg : Config) (cache : Cache) (req : Request) (origin : FetchOracle)
    (hcookie : jsTruthy (cookieGet (parseCookies ((req.cookieHeader).getD "")) "woocs_curr")
        = true) :
    (∀ cr, cacheLookup cache (currencyCacheKey cfg req) = some cr →
      handleRequestP1 cfg cache req origin = (Except.ok cr, cache))
    ∧ (∀ r n, cacheLookup cache (currencyCacheKey cfg req) = none →
        handlerP cfg req origin (detectLanguage cfg req) = (Except.ok r, n) →
        (handleRequestP1 cfg cache req origin).1 = Except.ok r)
    ∧ (∀ u pfx, hasWoocsSetCookie (redirectWithPrefixCached u pfx) = false) := by
  refine ⟨?_, ?_, ?_⟩
  · intro cr hcr
    simp [handleRequestP1, hcookie, hcr]
  · intro r n hmiss hrun
    simp [handleRequestP1, hcookie, hmiss, hrun]
  · intro u pfx
    simp [hasWoocsSetCookie, redirectWithPrefixCached]

/-- C1 (witness): concrete application of `c1_theorem`: the cookie-bearing
request `req1` on an empty cache gets the origin response back verbatim.
-/
theorem c1_witness :
    (handleRequestP1 config [] req1 originOk).1 = Except.ok okResp := by
  exact (c1_theorem config [] req1 originOk (by decide)).2.1 okResp 1 (by decide) (by decide)

/-- C2 (counterexample): in the basic variant (`src/index.js`), an
out-of-scope request under `always_on_not_found` whose trial fetch returns
200 is answered with a SECOND fetch of the original request (two fetches in
total, and the returned response differs from the trial response), refuting
the claim that the trial response object itself is returned with no
further fetch. -/
theorem c2_counterexample :
    originIdx 0 = Except.ok ⟨200, none, []⟩
    ∧ routeHandleThis cfgOut req2.url.pathname = false
    ∧ cfgOut.always_on_not_found = true
    ∧ handlerBasic cfgOut req2 originIdx = (Except.ok ⟨201, none, []⟩, 2)
    ∧ (⟨201, none, []⟩ : Response) ≠ (⟨200, none, []⟩ : Response) := by
  decide

/-- C2 (amended): for an out-of-scope request under `always_on_not_found`,
a 404 trial promotes the request into the language pipeline in all three
handler variants; for any other trial status, the cache-by-URL and the
currency-aware handlers return the trial response object itself with no
further fetch, while the basic variant returns the response of a second
fetch of the original request. -/
theorem c2_theorem (cfg : Config) (req : Request) (origin : FetchOracle) (dl : String)
    (res : Response)
    (hmethod : (req.method == "GET" || req.method == "HEAD") = true)
    (hmedia : (isMediaPath req.url.pathname || isWpPath req.url.pathname) = false)
    (hguard : firstSegmentIsLanguage cfg req.url.pathname = false)
    (hscope : routeHandleThis cfg req.url.pathname = false)
    (halways : cfg.always_on_not_found = true)
    (htrial : origin 0 = Except.ok res) :
    (res.status ≠ 404 →
      handlerC cfg req origin = (Except.ok res, 1)
      ∧ handlerP cfg req origin dl = (Except.ok res, 1)
      ∧ handlerBasic cfg req origin = (origin 1, 2))
    ∧ (res.status = 404 →
      handlerC cfg req origin = handlerCTail cfg req origin 1
      ∧ handlerP cfg req origin dl = handlerPTail cfg req origin dl 1
      ∧ handlerBasic cfg req origin = handlerBasicTail cfg req origin 1) := by
  constructor
  · intro hne
    have hs : (res.status == 404) = false := by
      simpa using hne
    refine ⟨?_, ?_, ?_⟩ <;>
      simp [handlerC, handlerP, handlerBasic, hmethod, hmedia, hguard, hscope, halways,
        htrial, hs]
  · intro heq
    have hs : (res.status == 404) = true := by
      simpa using heq
    refine ⟨?_, ?_, ?_⟩ <;>
      simp [handlerC, handlerP, handlerBasic, hmethod, hmedia, hguard, hscope, halways,
        htrial, hs]

/-- C2 (witness): concrete application of `c2_theorem` to `/page` under
routes `["/shop/**"]` with a 200 trial. -/
theorem c2_witness :
    handlerC cfgOut req2 originIdx = (Except.ok ⟨200, none, []⟩, 1)
    ∧ handlerP cfgOut req2 originIdx "de" = (Except.ok ⟨200, none, []⟩, 1)
    ∧ handlerBasic cfgOut req2 originIdx = (originIdx 1, 2) := by
  exact (c2_theorem cfgOut req2 originIdx "de" ⟨200, none, []⟩ (by decide) (by decide)
    (by decide) (by decide) (by decide) (by decide)).1 (by decide)

/-- C3 (counterexample): a transport error during the trial fetch does not
lead to an immediate passthrough: the cache-by-URL handler proceeds into
language negotiation and returns a redirect for the same request, refuting
the claim. -/
theorem c3_counterexample :
    originFail0 0 = Except.error Failure.fetchFailed
    ∧ routeHandleThis cfgOut req2.url.pathname = false
    ∧ cfgOut.always_on_not_found = true
    ∧ handlerC cfgOut req2 originFail0 =
        (Except.ok (redirectWithPrefixCached req2.url "de"), 1)
    ∧ (redirectWithPrefixCached req2.url "de").status = 302 := by
  decide

/-- C3 (amended): for an out-of-scope request under `always_on_not_found`,
a transport error during the trial fetch is treated like a 404: all three
handler variants promote the request into the language pipeline (and may
therefore return a redirect), rather than passing the original request
through. -/
theorem c3_theorem (cfg : Config) (req : Request) (origin : FetchOracle) (dl : String)
    (f : Failure)
    (hmethod : (req.method == "GET" || req.method == "HEAD") = true)
    (hmedia : (isMediaPath req.url.pathname || isWpPath req.url.pathname) = false)
    (hguard : firstSegmentIsLanguage cfg req.url.pathname = false)
    (hscope : routeHandleThis cfg req.url.pathname = false)
    (halways : cfg.always_on_not_found = true)
    (htrial : origin 0 = Except.error f) :
    handlerC cfg req origin = handlerCTail cfg req origin 1
    ∧ handlerP cfg req origin dl = handlerPTail cfg req origin dl 1
    ∧ handlerBasic cfg req origin = handlerBasicTail cfg req origin 1 := by
  refine ⟨?_, ?_, ?_⟩ <;>
    simp [handlerC, handlerP, handlerBasic, hmethod, hmedia, hguard, hscope, halways, htrial]

/-- C3 (witness): concrete application of `c3_theorem`: the failing trial
promotes, and the pipeline then redirects `/page` to `/de/page`. -/
theorem c3_witness :
    handlerC cfgOut req2 originFail0 = handlerCTail cfgOut req2 originFail0 1
    ∧ handlerP cfgOut req2 originFail0 "de" = handlerPTail cfgOut req2 originFail0 "de" 1
    ∧ handlerBasic cfgOut req2 originFail0 = handlerBasicTail cfgOut req2 originFail0 1 := by
  exact c3_theorem cfgOut req2 originFail0 "de" Failure.fetchFailed (by decide) (by decide)
    (by decide) (by decide) (by decide) (by decide)

/-- C4 (counterexample): on the header `de-DE;q=0.5,fr-FR;q=0.9` the first
pick finds nothing, but the code's retry header still contains the intact
entry `fr-FR` (only the first `xx-YY` occurrence is stripped), and the
negotiated language is `de` — whereas picking on the
every-entry-stripped header would yield `fr`.  This refutes the claim that
the region qualifier is stripped from every `xx-YY` entry before the
second pick. -/
theorem c4_counterexample :
    pick config.supported_languages "de-DE;q=0.5,fr-FR;q=0.9" = none
    ∧ stripFirstRegion "de-DE;q=0.5,fr-FR;q=0.9" = "de;q=0.5,fr-FR;q=0.9"
    ∧ containsSubStr "fr-FR" (stripFirstRegion "de-DE;q=0.5,fr-FR;q=0.9") = true
    ∧ stripAllRegions "de-DE;q=0.5,fr-FR;q=0.9" = "de;q=0.5,fr;q=0.9"
    ∧ detectLanguage config req4 = "de"
    ∧ pick config.supported_languages (stripAllRegions "de-DE;q=0.5,fr-FR;q=0.9")
        = some "fr" := by
  decide

/-- C4 (amended): when first-pass negotiation finds no supported language
or finds the default language, the retry is performed on the header in
which the region qualifier has been stripped from only the FIRST (leftmost)
`xx-YY`-shaped substring of the raw header (the `replace` has no global
flag); the negotiated language is then the second pick's result, with the
default as fallback. -/
theorem c4_theorem (cfg : Config) (req : Request) (header : String)
    (hal : req.acceptLanguage = some header)
    (hfirst : pick cfg.supported_languages header = none
      ∨ pick cfg.supported_languages header = some cfg.default_language) :
    detectLanguage cfg req =
      (pick cfg.supported_languages (stripFirstRegion header)).getD cfg.default_language := by
  rcases hfirst with h | h <;> simp [detectLanguage, hal, h]

/-- C4 (witness): concrete application of `c4_theorem` to the header
`de-DE;q=0.5,fr-FR;q=0.9`. -/
theorem c4_witness :
    detectLanguage config req4 =
      (pick config.supported_languages
        (stripFirstRegion "de-DE;q=0.5,fr-FR;q=0.9")).getD config.default_language := by
  exact c4_theorem config req4 "de-DE;q=0.5,fr-FR;q=0.9" rfl (Or.inl (by decide))

/-- C5: the prefix guard only runs when `pathname.split('/')` has more
than two parts, so the single-segment path `/de` — whose first segment
equals the supported language `de` — is NOT passed through: with the
shipped config the cache-by-URL handler 302-redirects `GET /de`
(Accept-Language `de`) to `/de/de`, contradicting the claim (and the
guard's own stated purpose of preventing double prefixing). -/
theorem c5_theorem :
    (splitChar '/' reqDe.url.pathname).length = 2
    ∧ config.supported_languages.any
        (fun language => toLowerStr language == toLowerStr "de") = true
    ∧ config.listen_on_prefixed_paths = false
    ∧ handlerC config reqDe originOk = (Except.ok (redirectWithPrefixCached reqDe.url "de"), 0)
    ∧ (redirectWithPrefixCached reqDe.url "de").status = 302
    ∧ (redirectWithPrefixCached reqDe.url "de").headers =
        [("Location", "https://shop.example/de/de"),
         ("Cache-Control", "public, max-age=3600")] := by
  decide

/-- C6 (counterexample): the basic variant's redirects carry no
`Cache-Control` header at all: `GET /page` with Accept-Language `de` is
redirected with only a `Location` header, refuting the claim that every
redirect the system emits carries `Cache-Control: public, max-age=3600`.
-/
theorem c6_counterexample :
    handlerBasic config req2 originOk = (Except.ok (redirectWithPrefixBasic req2.url "de"), 0)
    ∧ (redirectWithPrefixBasic req2.url "de").status = 302
    ∧ (redirectWithPrefixBasic req2.url "de").headers =
        [("Location", "https://shop.example/de/page")]
    ∧ (redirectWithPrefixBasic req2.url "de").headers.any
        (fun kv => kv.1 == "Cache-Control") = false := by
  decide

/-- C8 (counterexample): with no `woocs_curr` cookie and NO country
signal, part_001's `handleRequest` resolves no currency at all and
attaches no `Set-Cookie`, refuting the claim that the configured default
currency is chosen and attached whenever the country signal is absent. -/
theorem c8_counterexample :
    req8a.cfCountry = none
    ∧ req8a.cookieHeader = none
    ∧ handleRequestP1 config [] req8a originOk = (Except.ok okResp, [])
    ∧ hasWoocsSetCookie okResp = false := by
  decide

/-- A passthrough branch returns an origin response, so under an origin
that never answers 302 it cannot be the source of a 302 result. -/
theorem passthroughNo302 (origin : FetchOracle)
    (horigin : ∀ m r, origin m = Except.ok r → r.status ≠ 302)
    (m p n : Nat) (res : Response)
    (h : (origin m, p) = (Except.ok res, n)) (h302 : res.status = 302) : False := by
  injection h with h1 h2
  exact horigin m res h1 h302

/-- Any 302 produced by the cache-by-URL language tail is a
`redirectWithPrefixCached` of the request's URL. -/
theorem handlerCTail302 (cfg : Config) (req : Request) (origin : FetchOracle) (k : Nat)
    (horigin : ∀ m r, origin m = Except.ok r → r.status ≠ 302)
    (res : Response) (n : Nat)
    (hrun : handlerCTail cfg req origin k = (Except.ok res, n)) (h302 : res.status = 302) :
    ∃ language, res = redirectWithPrefixCached req.url language := by
  simp only [handlerCTail] at hrun
  split at hrun
  · exact (passthroughNo302 origin horigin _ _ _ res hrun h302).elim
  · repeat' split at hrun
    all_goals first
      | exact (passthroughNo302 origin horigin _ _ _ res hrun h302).elim
      | (injection hrun with h1 h2
         injection h1 with h3
         exact ⟨_, h3.symm⟩)

/-- Any 302 produced by the currency variants' language tail is a
`redirectWithPrefixCached` of the request's URL. -/
theorem handlerPTail302 (cfg : Config) (req : Request) (origin : FetchOracle)
    (dl : String) (k : Nat)
    (horigin : ∀ m r, origin m = Except.ok r → r.status ≠ 302)
    (res : Response) (n : Nat)
    (hrun : handlerPTail cfg req origin dl k = (Except.ok res, n)) (h302 : res.status = 302) :
    ∃ language, res = redirectWithPrefixCached req.url language := by
  simp only [handlerPTail] at hrun
  split at hrun
  · exact (passthroughNo302 origin horigin _ _ _ res hrun h302).elim
  · injection hrun with h1 h2
    injection h1 with h3
    exact ⟨_, h3.symm⟩

/-- The cache-by-URL handler either passes an origin response through,
returns the non-404 trial response, or runs the language tail. -/
theorem handlerCShape (cfg : Config) (req : Request) (origin : FetchOracle) :
    (∃ m p, handlerC cfg req origin = (origin m, p))
    ∨ (∃ r, origin 0 = Except.ok r ∧ handlerC cfg req origin = (Except.ok r, 1))
    ∨ (∃ k, handlerC cfg req origin = handlerCTail cfg req origin k) := by
  unfold handlerC
  repeat' split
  all_goals first
    | exact Or.inl ⟨0, 1, rfl⟩
    | exact Or.inr (Or.inr ⟨0, rfl⟩)
    | exact Or.inr (Or.inr ⟨1, rfl⟩)
    | exact Or.inr (Or.inl ⟨_, by assumption, rfl⟩)

/-- The currency handlers either pass an origin response through, return
the non-404 trial response, or run the language tail. -/
theorem handlerPShape (cfg : Config) (req : Request) (origin : FetchOracle) (dl : String) :
    (∃ m p, handlerP cfg req origin dl = (origin m, p))
    ∨ (∃ r, origin 0 = Except.ok r ∧ handlerP cfg req origin dl = (Except.ok r, 1))
    ∨ (∃ k, handlerP cfg req origin dl = handlerPTail cfg req origin dl k) := by
  unfold handlerP
  repeat' split
  all_goals first
    | exact Or.inl ⟨0, 1, rfl⟩
    | exact Or.inr (Or.inr ⟨0, rfl⟩)
    | exact Or.inr (Or.inr ⟨1, rfl⟩)
    | exact Or.inr (Or.inl ⟨_, by assumption, rfl⟩)

/-- C6 (amended): under an origin that never itself answers 302, every 302
the cache-by-URL handler or the currency handlers produce is a
`redirectWithPrefixCached`: status 302, null body, `Location` equal to the
original URL with `/{language}` inserted as the new first path segment
(scheme, host, remaining path and query preserved), and
`Cache-Control: public, max-age=3600`.  (The basic variant's redirects
carry no `Cache-Control` header — see the counterexample.) -/
theorem c6_theorem (cfg : Config) (req : Request) (origin : FetchOracle)
    (horigin : ∀ m r, origin m = Except.ok r → r.status ≠ 302) :
    (∀ res n, handlerC cfg req origin = (Except.ok res, n) → res.status = 302 →
      ∃ language, res = redirectWithPrefixCached req.url language
        ∧ res.body = none
        ∧ res.headers =
            [("Location",
              URLParts.href { req.url with pathname := "/" ++ language ++ req.url.pathname }),
             ("Cache-Control", "public, max-age=" ++ toString CACHE_EXPIRATION)])
    ∧ (∀ dl res n, handlerP cfg req origin dl = (Except.ok res, n) → res.status = 302 →
      ∃ language, res = redirectWithPrefixCached req.url language
        ∧ res.body = none
        ∧ res.headers =
            [("Location",
              URLParts.href { req.url with pathname := "/" ++ language ++ req.url.pathname }),
             ("Cache-Control", "public, max-age=" ++ toString CACHE_EXPIRATION)]) := by
  constructor
  · intro res n hrun h302
    have hred : ∃ language, res = redirectWithPrefixCached req.url language := by
      rcases handlerCShape cfg req origin with ⟨m, p, hshape⟩ | ⟨r', hor, hshape⟩ | ⟨k, hshape⟩
      · rw [hshape] at hrun
        exact (passthroughNo302 origin horigin _ _ _ res hrun h302).elim
      · rw [hshape] at hrun
        injection hrun with h1 h2
        injection h1 with h3
        exact absurd h302 (h3 ▸ horigin 0 r' hor)
      · rw [hshape] at hrun
        exact handlerCTail302 cfg req origin k horigin res n hrun h302
    obtain ⟨language, hl⟩ := hred
    exact ⟨language, hl, by simp [hl, redirectWithPrefixCached, URLParts.href]⟩
  · intro dl res n hrun h302
    have hred : ∃ language, res = redirectWithPrefixCached req.url language := by
      rcases handlerPShape cfg req origin dl with ⟨m, p, hshape⟩ | ⟨r', hor, hshape⟩ | ⟨k, hshape⟩
      · rw [hshape] at hrun
        exact (passthroughNo302 origin horigin _ _ _ res hrun h302).elim
      · rw [hshape] at hrun
        injection hrun with h1 h2
        injection h1 with h3
        exact absurd h302 (h3 ▸ horigin 0 r' hor)
      · rw [hshape] at hrun
        exact handlerPTail302 cfg req origin dl k horigin res n hrun h302
    obtain ⟨language, hl⟩ := hred
    exact ⟨language, hl, by simp [hl, redirectWithPrefixCached, URLParts.href]⟩

/-- C6 (witness): concrete application of `c6_theorem` to the redirect the
cache-by-URL handler emits for `GET /page` with Accept-Language `de`. -/
theorem c6_witness :
    ∃ language,
      redirectWithPrefixCached req2.url "de" = redirectWithPrefixCached req2.url language
      ∧ (redirectWithPrefixCached req2.url "de").body = none
      ∧ (redirectWithPrefixCached req2.url "de").headers =
          [("Location",
            URLParts.href { req2.url with pathname := "/" ++ language ++ req2.url.pathname }),
           ("Cache-Control", "public, max-age=" ++ toString CACHE_EXPIRATION)] := by
  have horigin : ∀ m r, originOk m = Except.ok r → r.status ≠ 302 := by
    intro m r h
    have hr : okResp = r := by injection h
    rw [← hr]
    decide
  exact (c6_theorem config req2 originOk horigin).1
    (redirectWithPrefixCached req2.url "de") 0 (by decide) (by decide)

/-- C7: the basic variant's handler is NOT total: whenever the first pick
fails (e.g. Accept-Language `de-CH`, which no plain supported tag matches),
the retry branch dereferences the undefined `parser` and throws a
ReferenceError instead of returning a response — while the cache-by-URL
handler on the same request recovers and redirects.  This evaluates the
code at the failing input of the claim. -/
theorem c7_theorem :
    pick config.supported_languages "de-CH" = none
    ∧ handlerBasic config reqDeCH originOk = (Except.error Failure.jsError, 0)
    ∧ handlerC config reqDeCH originOk =
        (Except.ok (redirectWithPrefixCached reqDeCH.url "de"), 0) := by
  decide

/-- C8 (amended): when no `woocs_curr` cookie is present AND a non-empty
country signal exists, part_001's `handleRequest` resolves the currency by
a case-insensitive lookup of the country in the static table — falling
back to the configured default currency (or the hard-coded `USD` when none
is configured) for unmapped countries — and attaches it as a `Set-Cookie`
on the outgoing response.  With an absent country signal no currency is
resolved and no cookie is attached (see the counterexample). -/
theorem c8_theorem (cfg : Config) (cache : Cache) (req : Request) (origin : FetchOracle)
    (c : String) (r : Response) (n : Nat)
    (hcookie : jsTruthy (cookieGet (parseCookies ((req.cookieHeader).getD "")) "woocs_curr")
        = false)
    (hcountry : req.cfCountry = some c)
    (hc : (c != "") = true)
    (hcur : (mapCountryToCurrencyP1 cfg c != "") = true)
    (hmiss : cacheLookup cache (currencyCacheKey cfg req) = none)
    (hrun : handlerP cfg req origin (detectLanguage cfg req) = (Except.ok r, n)) :
    (handleRequestP1 cfg cache req origin).1 =
        Except.ok (appendWoocsP1 r (mapCountryToCurrencyP1 cfg c))
    ∧ hasWoocsSetCookie (appendWoocsP1 r (mapCountryToCurrencyP1 cfg c)) = true
    ∧ mapCountryToCurrencyP1 cfg c
        = getCurrencyFromCountry (some c) countryToCurrencyP1 cfg.default_currency
    ∧ (∀ c2, toUpperStr c2 = toUpperStr c →
        mapCountryToCurrencyP1 cfg c2 = mapCountryToCurrencyP1 cfg c)
    ∧ (tableLookup countryToCurrencyP1 (toUpperStr c) = none →
        mapCountryToCurrencyP1 cfg c = (cfg.default_currency).getD "USD") := by
  refine ⟨?_, hasWoocsAppendP1 r _, rfl, ?_, ?_⟩
  · simp only [handleRequestP1]
    rw [hcookie, hcountry]
    simp [jsTruthy, hc, hcur, hmiss, hrun]
  · intro c2 h
    simp only [mapCountryToCurrencyP1, getCurrencyFromCountry, Option.getD_some]
    rw [h]
  · intro hnone
    simp only [mapCountryToCurrencyP1, getCurrencyFromCountry, Option.getD_some, hnone]
    cases cfg.default_currency <;> rfl

/-- C8 (witness): concrete application of `c8_theorem`: lower-case country
`us` resolves (case-insensitively) and the cookie is attached. -/
theorem c8_witness :
    (handleRequestP1 config [] req8b originOk).1 =
      Except.ok (appendWoocsP1 okResp (mapCountryToCurrencyP1 config "us")) := by
  exact (c8_theorem config [] req8b originOk "us" okResp 1 (by decide) rfl (by decide)
    (by decide) (by decide) (by decide)).1

/-- C9 (counterexample): part_001 caches a cookie-bearing passthrough:
client A (country US, no cookie) stores the entry with
`Set-Cookie: woocs_curr=USD…`; client B (country DE, no cookie, same key)
is then served that entry with A's `woocs_curr=USD` cookie still embedded
(next to B's own freshly appended `woocs_curr=EUR`), refuting the claim
that a cached response never carries a `woocs_curr` value computed from
the first client's country. -/
theorem c9_counterexample :
    reqA.cfCountry = some "US"
    ∧ reqB.cfCountry = some "DE"
    ∧ mapCountryToCurrencyP1 config "US" = "USD"
    ∧ mapCountryToCurrencyP1 config "DE" = "EUR"
    ∧ (handleRequestP1 config (handleRequestP1 config [] reqA originOk).2 reqB originOk).1 =
        Except.ok
          { status := 200, body := some "page",
            headers := [("Content-Type", "text/html"),
              ("Set-Cookie", "woocs_curr=USD; Path=/; Max-Age=86400; Secure; SameSite=Lax"),
              ("Set-Cookie", "woocs_curr=EUR; Path=/; Max-Age=86400; Secure; SameSite=Lax")] } := by
  decide

/-- C9 (amended): a stored cache entry CAN embed a currency `Set-Cookie`
derived from the storing client's request: in part_001, when a cookieless
client with a non-empty country signal receives a non-302 pipeline
response, the entry cached under the URL+language key is that response
WITH the client's freshly appended `woocs_curr` `Set-Cookie` (and it is
replayed to later clients with the same key — see the counterexample);
only on the 302 path does the final stored entry end up as the clean
redirect without the cookie, because the plain-response put overwrites the
cookie-bearing put. -/
theorem c9_theorem (cfg : Config) (cache : Cache) (req : Request) (origin : FetchOracle)
    (c : String) (r : Response) (n : Nat)
    (hcookie : jsTruthy (cookieGet (parseCookies ((req.cookieHeader).getD "")) "woocs_curr")
        = false)
    (hcountry : req.cfCountry = some c)
    (hc : (c != "") = true)
    (hcur : (mapCountryToCurrencyP1 cfg c != "") = true)
    (hmiss : cacheLookup cache (currencyCacheKey cfg req) = none)
    (hrun : handlerP cfg req origin (detectLanguage cfg req) = (Except.ok r, n)) :
    (r.status ≠ 302 →
      cacheLookup (handleRequestP1 cfg cache req origin).2 (currencyCacheKey cfg req)
        = some (appendWoocsP1 r (mapCountryToCurrencyP1 cfg c)))
    ∧ (r.status = 302 →
      cacheLookup (handleRequestP1 cfg cache req origin).2 (currencyCacheKey cfg req)
        = some r) := by
  constructor
  · intro hs
    have hsb : (r.status == 302) = false := by
      simpa using hs
    simp only [handleRequestP1]
    rw [hcookie, hcountry]
    simp [jsTruthy, hc, hcur, hmiss, hrun, hsb, cacheLookupPut]
  · intro hs
    have hsb : (r.status == 302) = true := by
      simpa using hs
    simp only [handleRequestP1]
    rw [hcookie, hcountry]
    simp [jsTruthy, hc, hcur, hmiss, hrun, hsb, cacheLookupPut]

/-- C9 (witness): concrete application of `c9_theorem`: client A's 200
passthrough is stored with A's `woocs_curr=USD` cookie embedded. -/
theorem c9_witness :
    cacheLookup (handleRequestP1 config [] reqA originOk).2 (currencyCacheKey config reqA)
      = some (appendWoocsP1 okResp (mapCountryToCurrencyP1 config "US")) := by
  exact (c9_theorem config [] reqA originOk "US" okResp 1 (by decide) rfl (by decide)
    (by decide) (by decide) (by decide)).1 (by decide)

/-- C10: in the cache-by-URL variant, a cache hit depends only on the
request's URL: whenever the cache holds an entry for the URL, ANY request
to that URL — whatever its Accept-Language header or fetch behaviour —
receives exactly the stored response and leaves the cache unchanged; and a
302 pipeline response on a miss is stored under the URL key, so a
subsequent same-URL request receives it verbatim. -/
theorem c10_theorem (cfg : Config) (cache : Cache) (ra rb : Request)
    (oa ob : FetchOracle) (cr : Response)
    (hurl : rb.url = ra.url)
    (hhit : cacheLookup cache ra.url.href = some cr) :
    handleRequestC cfg cache ra oa = (Except.ok cr, cache)
    ∧ handleRequestC cfg cache rb ob = (Except.ok cr, cache)
    ∧ (∀ req origin r n, cacheLookup cache req.url.href = none →
        handlerC cfg req origin = (Except.ok r, n) → r.status = 302 →
        handleRequestC cfg cache req origin = (Except.ok r, cachePut cache req.url.href r)) := by
  refine ⟨?_, ?_, ?_⟩
  · simp [handleRequestC, hhit]
  · simp [handleRequestC, hurl, hhit]
  · intro req origin r n hmiss hrun h302
    have hsb : (r.status == 302) = true := by
      simpa using h302
    simp [handleRequestC, hmiss, hrun, hsb]

/-- C10 (witness): concrete application of `c10_theorem`: after `GET
/page` (Accept-Language `de`) stored its 302, the same URL requested with
Accept-Language `fr` receives the identical stored redirect and the cache
is unchanged. -/
theorem c10_witness :
    handleRequestC config (handleRequestC config [] req2 originOk).2 reqFr originOk =
      (Except.ok (redirectWithPrefixCached req2.url "de"),
        (handleRequestC config [] req2 originOk).2) := by
  exact (c10_theorem config (handleRequestC config [] req2 originOk).2 req2 reqFr originOk
    originOk (redirectWithPrefixCached req2.url "de") rfl (by decide)).2.1

end LangRedirect
